import Mathlib

/-!
Verification development for the deepnote-toolkit tabular analysis engine
("ocelots"): the column statistics engine, the filter model, the browse
preview cache, and the pandas string-conversion utility.

The statistics engine, filter model and preview cache are modelled from the
specification document (their implementation modules are not part of the
sources at hand; only their unit tests and the pandas utility module are).
Where the unit tests pin concrete behaviour, the model follows the tests.
Machine floats are modelled exactly: finite numeric cells are integers,
non-finite values (NaN folded into null, plus the two infinities) are
explicit symbols, and histogram bin bounds are exact integer fractions.
-/

namespace Ocelots

/-- Modelled from the spec: the reserved synthetic row-identity column name
used by the browse layer; it is reported in column metadata but never
statistically analyzed. -/
def DEEPNOTE_INDEX_COLUMN : String := "_deepnote_index_column"

/-- Modelled from the spec: the cap on the number of category buckets
reported for a categorical column (the unit tests pin the cap at 3 entries
in total, synthetic buckets included). -/
def MAX_CATEGORIES : Nat := 3

/-- Modelled from the spec: one cell of a table column. NaN and NaT are
folded into the null symbol (they are dropped from consideration and counted
as missing); the infinities are kept as explicit non-null symbols. -/
inductive Cell where
  | null : Cell
  | num (n : Int) : Cell
  | inf (pos : Bool) : Cell
  | str (s : String) : Cell
deriving DecidableEq, Repr

/-- Modelled from the spec: a named column with its backend-reported dtype
tag and its cells. -/
structure Column where
  name : String
  dtype : String
  cells : List Cell
deriving DecidableEq, Repr

/-- Modelled from the spec: an exact fraction used for histogram bin bounds
(the reference system uses machine floats; the model keeps the bounds exact,
which in particular makes every bound a finite value). -/
structure Frac where
  fnum : Int
  fden : Int
deriving DecidableEq, Repr

/-- Modelled from the spec: one histogram bin with its bounds and the number
of values falling into it. -/
structure HistBin where
  bin_start : Frac
  bin_end : Frac
  count : Nat
deriving DecidableEq, Repr

/-- Modelled from the spec: one category bucket (a named value bucket, the
synthetic others bucket, or the synthetic Missing bucket). -/
structure Category where
  name : String
  count : Nat
deriving DecidableEq, Repr

/-- Modelled from the spec: the per-column statistics record. -/
structure ColumnStats where
  unique_count : Nat
  nan_count : Nat
  min : Option String
  max : Option String
  histogram : Option (List HistBin)
  categories : Option (List Category)
deriving DecidableEq, Repr

/-- Modelled from the spec: the per-column analysis output record: column
name, dtype tag, and the statistics (or none when over budget or for the
synthetic index column). -/
structure ColumnsStatsRecord where
  name : String
  dtype : String
  stats : Option ColumnStats
deriving DecidableEq, Repr

/-- Modelled from the spec: dtype tags treated as numeric, temporal or
duration (mirrors is_type_numeric over the dtype strings appearing in the
unit tests). -/
def isNumericDtype (d : String) : Bool :=
  d = "int64" || d = "int32" || d = "float64" || d = "float32" ||
    d = "datetime64[ns]" || d = "timedelta64[ns]"

/-- Non-null cells of a list, in order. -/
def nonNulls (l : List Cell) : List Cell :=
  l.filter (fun c => c ≠ Cell.null)

/-- Modelled from the spec: the deterministic string form used both as the
grouping key for (possibly unhashable) values and as the canonical rendering
of extremes. -/
def cellKey : Cell → String
  | Cell.null => "None"
  | Cell.num n => toString n
  | Cell.inf true => "inf"
  | Cell.inf false => "-inf"
  | Cell.str s => s

/-- Keys of a list in first-seen order, without duplicates. -/
def firstSeen : List String → List String
  | [] => []
  | k :: t => k :: (firstSeen t).filter (fun x => x ≠ k)

/-- Modelled from the spec: distinct values with their occurrence counts,
keys in first-seen order. -/
def valueCounts (ks : List String) : List (String × Nat) :=
  (firstSeen ks).map (fun k => (k, ks.count k))

/-- Modelled from the spec: value counts sorted by descending count; the
sort is stable, so ties are broken by first-seen order. -/
def sortedCounts (ks : List String) : List (String × Nat) :=
  List.insertionSort (fun a b => b.2 ≤ a.2) (valueCounts ks)

/-- Modelled from the spec: the category breakdown of a categorical column.
At most MAX_CATEGORIES buckets are produced in total: when the count of
distinct values exceeds the available value slots, the most frequent values
are kept and the remainder is folded into one synthetic others bucket; when
missing values exist a final Missing bucket is appended and occupies one of
the slots (bucket cap pinned by the unit tests). -/
def categoriesOf (ks : List String) (nanCount : Nat) : List Category :=
  let sorted := sortedCounts ks
  let slots := if 0 < nanCount then MAX_CATEGORIES - 1 else MAX_CATEGORIES
  let valueCats :=
    if slots < sorted.length then
      (sorted.take (slots - 1)).map (fun p => Category.mk p.1 p.2) ++
        [Category.mk (toString (sorted.length - (slots - 1)) ++ " others")
          (((sorted.drop (slots - 1)).map Prod.snd).sum)]
    else
      sorted.map (fun p => Category.mk p.1 p.2)
  valueCats ++ (if 0 < nanCount then [Category.mk "Missing" nanCount] else [])

/-- True when every cell is an ordered numeric value (finite or infinite):
extreme computation over such cells cannot raise. -/
def allNumLike (l : List Cell) : Bool :=
  l.all fun c =>
    match c with
    | Cell.num _ => true
    | Cell.inf _ => true
    | _ => false

/-- Numeric order on number-like cells: negative infinity below every finite
value, positive infinity above. The remaining cases are unreachable under
allNumLike. -/
def numLe (a b : Cell) : Bool :=
  match a, b with
  | Cell.inf false, _ => true
  | _, Cell.inf false => false
  | Cell.num x, Cell.num y => x ≤ y
  | Cell.num _, Cell.inf true => true
  | Cell.inf true, Cell.num _ => false
  | Cell.inf true, Cell.inf true => true
  | _, _ => false

/-- Least cell of a non-empty list under numLe. -/
def minCellOf : List Cell → Option Cell
  | [] => none
  | h :: t => some (t.foldl (fun m c => if numLe c m then c else m) h)

/-- Greatest cell of a non-empty list under numLe. -/
def maxCellOf : List Cell → Option Cell
  | [] => none
  | h :: t => some (t.foldl (fun m c => if numLe m c then c else m) h)

/-- Modelled from the spec: the finite (non-null, non-infinite) values of a
cell list, the only values a histogram is computed over. -/
def finiteVals (l : List Cell) : List Int :=
  l.filterMap fun c =>
    match c with
    | Cell.num n => some n
    | _ => none

/-- Modelled from the spec: a 10-bin histogram over the finite value range;
none when the finite values are empty or the range is zero. Bin i spans
[lo + (hi-lo)*i/10, lo + (hi-lo)*(i+1)/10), the last bin closed on the
right. -/
def histogramOf (l : List Cell) : Option (List HistBin) :=
  match finiteVals l with
  | [] => none
  | h :: t =>
    let lo := t.foldl min h
    let hi := t.foldl max h
    if lo = hi then none
    else
      some ((List.range 10).map fun (i : Nat) =>
        { bin_start := Frac.mk (lo * 10 + (hi - lo) * (i : Int)) 10
          bin_end := Frac.mk (lo * 10 + (hi - lo) * ((i : Int) + 1)) 10
          count := (h :: t).countP fun q =>
            decide (lo * 10 + (hi - lo) * (i : Int) ≤ 10 * q) &&
              (decide (10 * q < lo * 10 + (hi - lo) * ((i : Int) + 1)) ||
                decide (i = 9)) })

/-- Modelled from the spec: stringified extremes of the non-null values over
the dtype-respecting ordering; none when some value is not order-comparable
(the per-value degradation policy). -/
def minMaxOf (nn : List Cell) : Option String × Option String :=
  if allNumLike nn then
    ((minCellOf nn).map cellKey, (maxCellOf nn).map cellKey)
  else (none, none)

/-- Modelled from the spec: full statistics of one column. Null-likes are
dropped and counted; distinct values are counted after string-keying; a
numeric column with at least one non-null value gets extremes and a
histogram attempt; every other column is treated as categorical. -/
def analyzeColumn (c : Column) : ColumnStats :=
  let nn := nonNulls c.cells
  let nanCount := c.cells.count Cell.null
  let uc := (firstSeen (nn.map cellKey)).length
  if isNumericDtype c.dtype ∧ nn ≠ [] then
    { unique_count := uc
      nan_count := nanCount
      min := (minMaxOf nn).1
      max := (minMaxOf nn).2
      histogram := histogramOf nn
      categories := none }
  else
    { unique_count := uc
      nan_count := nanCount
      min := none
      max := none
      histogram := none
      categories := some (categoriesOf (nn.map cellKey) nanCount) }

/-- Modelled from the spec: extremes-only statistics for a color-scale
column served beyond the primary budget (no histogram, no categories). -/
def minMaxStats (c : Column) : ColumnStats :=
  let nn := nonNulls c.cells
  { unique_count := (firstSeen (nn.map cellKey)).length
    nan_count := c.cells.count Cell.null
    min := (minMaxOf nn).1
    max := (minMaxOf nn).2
    histogram := none
    categories := none }

/-- The row count of a table given as its columns (the length of the first
column, every column of a well-formed table having the same length). -/
def numRows (cols : List Column) : Nat :=
  match cols with
  | [] => 0
  | c :: _ => c.cells.length

/-- Modelled from the spec: the budgeted per-column analysis loop. The
counter k counts fully analyzed columns, k2 counts color-scale columns
granted extremes beyond the primary budget. A column is fully analyzed only
while rows times the running analyzed-column count stays within the primary
budget; otherwise a numeric color-scale column may still receive extremes
under the secondary budget; otherwise its stats are left none entirely. The
synthetic index column is reported but never analyzed. -/
def analyzeColumnsGo (nrows B B2 : Nat) (cs : List String) :
    Nat → Nat → List Column → List ColumnsStatsRecord
  | _, _, [] => []
  | k, k2, c :: rest =>
    if c.name = DEEPNOTE_INDEX_COLUMN then
      ColumnsStatsRecord.mk c.name c.dtype none ::
        analyzeColumnsGo nrows B B2 cs k k2 rest
    else if nrows * (k + 1) ≤ B then
      ColumnsStatsRecord.mk c.name c.dtype (some (analyzeColumn c)) ::
        analyzeColumnsGo nrows B B2 cs (k + 1) k2 rest
    else if c.name ∈ cs ∧ isNumericDtype c.dtype then
      if nrows * (k2 + 1) ≤ B2 then
        ColumnsStatsRecord.mk c.name c.dtype (some (minMaxStats c)) ::
          analyzeColumnsGo nrows B B2 cs k (k2 + 1) rest
      else
        ColumnsStatsRecord.mk c.name c.dtype none ::
          analyzeColumnsGo nrows B B2 cs k k2 rest
    else
      ColumnsStatsRecord.mk c.name c.dtype none ::
        analyzeColumnsGo nrows B B2 cs k k2 rest

/-- Modelled from the spec: analyze_columns under primary budget B and
secondary color-scale budget B2 (both implementation tuning parameters,
kept as arguments), with the requested color-scale column names. -/
def analyze_columns (B B2 : Nat) (cs : List String) (cols : List Column) :
    List ColumnsStatsRecord :=
  analyzeColumnsGo (numRows cols) B B2 cs 0 0 cols

/-- Modelled from the spec: the fixed operator vocabulary of the filter
model. -/
inductive FilterOperator where
  | TEXT_CONTAINS | TEXT_DOES_NOT_CONTAIN
  | IS_EQUAL | IS_NOT_EQUAL
  | GREATER_THAN | GREATER_THAN_OR_EQUAL | LESS_THAN | LESS_THAN_OR_EQUAL
  | IS_ONE_OF | IS_NOT_ONE_OF
  | IS_NULL | IS_NOT_NULL
  | BETWEEN | OUTSIDE_OF
  | IS_AFTER | IS_BEFORE | IS_ON | IS_RELATIVE_TODAY
deriving DecidableEq, Repr

/-- Modelled from the spec: a backend-independent predicate. -/
structure Filter where
  column : String
  operator : FilterOperator
  comparative_values : List Cell
deriving DecidableEq, Repr

/-- Modelled from the spec: the minimum number of comparative values an
operator requires (0 for the null tests, 2 for the range operators, 1
otherwise; the membership operators need at least one value). -/
def minArity : FilterOperator → Nat
  | FilterOperator.IS_NULL => 0
  | FilterOperator.IS_NOT_NULL => 0
  | FilterOperator.BETWEEN => 2
  | FilterOperator.OUTSIDE_OF => 2
  | _ => 1

/-- Modelled from the spec: the wire operator strings of the structured
filter shape. -/
def parseOperator (s : String) : Option FilterOperator :=
  if s = "text-contains" then some FilterOperator.TEXT_CONTAINS
  else if s = "text-does-not-contain" then some FilterOperator.TEXT_DOES_NOT_CONTAIN
  else if s = "is-equal" then some FilterOperator.IS_EQUAL
  else if s = "is-not-equal" then some FilterOperator.IS_NOT_EQUAL
  else if s = "greater-than" then some FilterOperator.GREATER_THAN
  else if s = "greater-than-or-equal" then some FilterOperator.GREATER_THAN_OR_EQUAL
  else if s = "less-than" then some FilterOperator.LESS_THAN
  else if s = "less-than-or-equal" then some FilterOperator.LESS_THAN_OR_EQUAL
  else if s = "is-one-of" then some FilterOperator.IS_ONE_OF
  else if s = "is-not-one-of" then some FilterOperator.IS_NOT_ONE_OF
  else if s = "is-null" then some FilterOperator.IS_NULL
  else if s = "is-not-null" then some FilterOperator.IS_NOT_NULL
  else if s = "between" then some FilterOperator.BETWEEN
  else if s = "outside-of" then some FilterOperator.OUTSIDE_OF
  else if s = "is-after" then some FilterOperator.IS_AFTER
  else if s = "is-before" then some FilterOperator.IS_BEFORE
  else if s = "is-on" then some FilterOperator.IS_ON
  else if s = "is-relative-today" then some FilterOperator.IS_RELATIVE_TODAY
  else none

/-- Modelled from the spec: the error raised on a malformed filter dict. -/
inductive FilterError where
  | invalidFilter : FilterError
deriving DecidableEq, Repr

/-- Modelled from the spec: a wire filter dict, holding either the legacy
shape keys (id, value, type) or the structured shape keys (column,
operator, comparativeValues); absent keys are none. -/
structure FilterDict where
  id : Option String
  value : Option Cell
  type : Option String
  column : Option String
  operator : Option String
  comparativeValues : Option (List Cell)
deriving DecidableEq, Repr

/-- Modelled from the spec: Filter.from_dict accepts the legacy shape
(id, value, type equal to contains), which maps to TEXT_CONTAINS with the
single given value, and the structured shape (column, operator,
comparativeValues) with a recognized operator string; anything else is the
invalid-filter error. -/
def Filter.from_dict (d : FilterDict) : Except FilterError Filter :=
  match d.operator with
  | some opStr =>
    match d.column, parseOperator opStr, d.comparativeValues with
    | some col, some op, some vs => Except.ok (Filter.mk col op vs)
    | _, _, _ => Except.error FilterError.invalidFilter
  | none =>
    if d.type = some "contains" then
      match d.id, d.value with
      | some col, some v =>
        Except.ok (Filter.mk col FilterOperator.TEXT_CONTAINS [v])
      | _, _ => Except.error FilterError.invalidFilter
    else Except.error FilterError.invalidFilter

/-- Modelled from the spec: a materialized table, a list of rows over named,
dtype-tagged columns. -/
structure Table where
  names : List String
  dtypes : List String
  rows : List (List Cell)
deriving DecidableEq, Repr

/-- Position of a column name in a name list, none when absent. -/
def colIndex (names : List String) (col : String) : Option Nat :=
  match names with
  | [] => none
  | n :: rest => if n = col then some 0 else (colIndex rest col).map (· + 1)

/-- True when the pattern character list occurs contiguously inside the
other list (case-sensitive substring test). -/
def containsSeq (pat : List Char) : List Char → Bool
  | [] => pat.isEmpty
  | h :: t => pat.isPrefixOf (h :: t) || containsSeq pat t

/-- Numeric comparison of two number-like cells, none when either side is
not number-like (mixed incomparable values). -/
def cmpNum (a b : Cell) : Option Ordering :=
  match a, b with
  | Cell.num x, Cell.num y => some (compare x y)
  | Cell.num _, Cell.inf p => some (if p then Ordering.lt else Ordering.gt)
  | Cell.inf p, Cell.num _ => some (if p then Ordering.gt else Ordering.lt)
  | Cell.inf p, Cell.inf q =>
    some (if p = q then Ordering.eq else if q then Ordering.lt else Ordering.gt)
  | _, _ => none

/-- Calendar-date component of a numeric timestamp cell value (whole days,
floor division). -/
def dayOf (n : Int) : Int :=
  Int.ediv n 86400

/-- Modelled from the spec: evaluation of one operator against one cell.
Text operators are case-sensitive substring tests on the string form;
numeric and temporal operators compare in the native numeric order; the
relative-today operator compares the calendar-date component against the
given wall-clock day. -/
def evalOp (today : Int) (op : FilterOperator) (vals : List Cell) (c : Cell) : Bool :=
  match op with
  | FilterOperator.TEXT_CONTAINS =>
    match c, vals.head? with
    | Cell.str s, some v => containsSeq (cellKey v).toList s.toList
    | _, _ => false
  | FilterOperator.TEXT_DOES_NOT_CONTAIN =>
    match c, vals.head? with
    | Cell.str s, some v => ! containsSeq (cellKey v).toList s.toList
    | _, _ => false
  | FilterOperator.IS_EQUAL =>
    match vals.head? with
    | some v => c = v
    | none => false
  | FilterOperator.IS_NOT_EQUAL =>
    match vals.head? with
    | some v => c ≠ v
    | none => false
  | FilterOperator.GREATER_THAN =>
    cmpNum c (vals.headD Cell.null) = some Ordering.gt
  | FilterOperator.GREATER_THAN_OR_EQUAL =>
    cmpNum c (vals.headD Cell.null) = some Ordering.gt ||
      cmpNum c (vals.headD Cell.null) = some Ordering.eq
  | FilterOperator.LESS_THAN =>
    cmpNum c (vals.headD Cell.null) = some Ordering.lt
  | FilterOperator.LESS_THAN_OR_EQUAL =>
    cmpNum c (vals.headD Cell.null) = some Ordering.lt ||
      cmpNum c (vals.headD Cell.null) = some Ordering.eq
  | FilterOperator.IS_ONE_OF => vals.contains c
  | FilterOperator.IS_NOT_ONE_OF => ! vals.contains c
  | FilterOperator.IS_NULL => c = Cell.null
  | FilterOperator.IS_NOT_NULL => c ≠ Cell.null
  | FilterOperator.BETWEEN =>
    match vals with
    | v1 :: v2 :: _ =>
      (cmpNum c v1 = some Ordering.gt || cmpNum c v1 = some Ordering.eq) &&
        (cmpNum c v2 = some Ordering.lt || cmpNum c v2 = some Ordering.eq)
    | _ => false
  | FilterOperator.OUTSIDE_OF =>
    match vals with
    | v1 :: v2 :: _ =>
      cmpNum c v1 = some Ordering.lt || cmpNum c v2 = some Ordering.gt
    | _ => false
  | FilterOperator.IS_AFTER =>
    cmpNum c (vals.headD Cell.null) = some Ordering.gt
  | FilterOperator.IS_BEFORE =>
    cmpNum c (vals.headD Cell.null) = some Ordering.lt
  | FilterOperator.IS_ON =>
    match c, vals.head? with
    | Cell.num x, some (Cell.num y) => dayOf x = dayOf y
    | _, _ => false
  | FilterOperator.IS_RELATIVE_TODAY =>
    match c, vals.head? with
    | Cell.num x, some (Cell.str s) =>
      let target := if s = "yesterday" then today - 1
        else if s = "tomorrow" then today + 1 else today
      dayOf x = target
    | _, _ => false

/-- Modelled from the spec: whether a row passes one filter. A filter whose
column does not exist, or supplied with zero comparative values where at
least one is required, is silently dropped (every row passes). -/
def rowPasses (today : Int) (names : List String) (f : Filter) (r : List Cell) : Bool :=
  match colIndex names f.column with
  | none => true
  | some i =>
    if f.comparative_values = [] ∧ 1 ≤ minArity f.operator then true
    else evalOp today f.operator f.comparative_values (r.getD i Cell.null)

/-- Modelled from the spec: conjunctive filtering of a table; dropped
predicates degrade to a no-op, never to a failure. -/
def Table.filterBy (today : Int) (t : Table) (fs : List Filter) : Table :=
  Table.mk t.names t.dtypes
    (t.rows.filter fun r => fs.all fun f => rowPasses today t.names f r)

/-- A total-enough order on cells for sorting: numbers below strings, nulls
last; numbers in numeric order, strings in lexicographic order. -/
def cellRank : Cell → Nat
  | Cell.inf false => 0
  | Cell.num _ => 1
  | Cell.inf true => 2
  | Cell.str _ => 3
  | Cell.null => 4

/-- Sorting order on two cells. -/
def cellLe (a b : Cell) : Bool :=
  match a, b with
  | Cell.num x, Cell.num y => x ≤ y
  | Cell.str x, Cell.str y => x ≤ y
  | x, y => cellRank x ≤ cellRank y

/-- Modelled from the spec: lexicographic multi-key row order; unknown key
columns are dropped from the key list. -/
def rowLe (names : List String) : List (String × Bool) → List Cell → List Cell → Bool
  | [], _, _ => true
  | (col, asc) :: rest, r1, r2 =>
    match colIndex names col with
    | none => rowLe names rest r1 r2
    | some i =>
      let a := r1.getD i Cell.null
      let b := r2.getD i Cell.null
      if a = b then rowLe names rest r1 r2
      else if asc then cellLe a b else cellLe b a

/-- Modelled from the spec: stable multi-key sort of a table. -/
def Table.sortBy (t : Table) (keys : List (String × Bool)) : Table :=
  Table.mk t.names t.dtypes
    (List.insertionSort (fun r1 r2 => rowLe t.names keys r1 r2 = true) t.rows)

/-- Column-oriented view of a table, pairing each name and dtype with the
cells at that position of every row. -/
def Table.toColumns (t : Table) : List Column :=
  (List.range t.names.length).map fun i =>
    Column.mk (t.names.getD i "") (t.dtypes.getD i "")
      (t.rows.map fun r => r.getD i Cell.null)

/-- Modelled from the spec: the fault vocabulary of the preview cache: the
distinct not-initialized precondition fault, and the input error raised on
an invalid page index or size. -/
inductive PreviewError where
  | notInitialized : PreviewError
  | valueError : PreviewError
deriving DecidableEq, Repr

/-- Modelled from the spec: the browse preview cache. It owns the source
table, the last applied (filters, sort_by) key, the materialized rows, the
row count, and the separately cached column stats keyed by the color-scale
column selection; recomputeCount counts the filter-sort-materialize
recomputations performed. -/
structure DataPreview where
  source : Table
  today : Int
  cachedKey : Option (List Filter × List (String × Bool))
  cachedData : List (List Cell)
  cachedTotalSize : Nat
  cachedColumnStats : Option (List ColumnsStatsRecord)
  cachedColorScaleNames : Option (List String)
  recomputeCount : Nat
deriving DecidableEq, Repr

/-- Modelled from the spec: a freshly created, uninitialized preview. -/
def DataPreview.init (src : Table) (today : Int) : DataPreview :=
  DataPreview.mk src today none [] 0 none none 0

/-- A preview is initialized once a key has been cached, which happens on
the first update_if_needed. -/
def DataPreview.initialized (p : DataPreview) : Bool :=
  p.cachedKey.isSome

/-- Modelled from the spec: the one recompute path, filter then sort then
materialize through the table facade. -/
def pullDataPreview (p : DataPreview) (fs : List Filter)
    (sb : List (String × Bool)) : Table :=
  (Table.filterBy p.today p.source fs).sortBy sb

/-- Modelled from the spec: whether the cache already satisfies the
requested filters and sort. -/
def DataPreview.satisfies (p : DataPreview) (fs : List Filter)
    (sb : List (String × Bool)) : Bool :=
  p.cachedKey = some (fs, sb)

/-- Modelled from the spec: refresh the cache only when the requested
(filters, sort_by) differ from the cached key; every refresh replaces the
key, data and total size and invalidates the cached column stats. -/
def DataPreview.update_if_needed (p : DataPreview) (fs : List Filter)
    (sb : List (String × Bool)) : DataPreview :=
  if p.cachedKey = some (fs, sb) then p
  else
    let t := pullDataPreview p fs sb
    { p with
      cachedKey := some (fs, sb)
      cachedData := t.rows
      cachedTotalSize := t.rows.length
      cachedColumnStats := none
      cachedColorScaleNames := none
      recomputeCount := p.recomputeCount + 1 }

/-- Modelled from the spec: reading the materialized rows of an
uninitialized preview is the not-initialized fault. -/
def DataPreview.data (p : DataPreview) : Except PreviewError (List (List Cell)) :=
  if p.initialized then Except.ok p.cachedData
  else Except.error PreviewError.notInitialized

/-- Modelled from the spec: reading the total row count of an uninitialized
preview is the not-initialized fault. -/
def DataPreview.total_size (p : DataPreview) : Except PreviewError Nat :=
  if p.initialized then Except.ok p.cachedTotalSize
  else Except.error PreviewError.notInitialized

/-- Modelled from the spec: one page of the materialized rows. A negative
index or a non-positive size is an input error; an index beyond the last
page clamps to the last page. -/
def DataPreview.page (p : DataPreview) (index size : Int) :
    Except PreviewError (List (List Cell)) :=
  if ¬ p.initialized then Except.error PreviewError.notInitialized
  else if index < 0 ∨ size ≤ 0 then Except.error PreviewError.valueError
  else
    let sz := size.toNat
    let last := (p.cachedData.length - 1) / sz
    let j := min index.toNat last
    Except.ok ((p.cachedData.drop (j * sz)).take sz)

/-- Modelled from the spec: column stats of the materialized view, cached
per color-scale column selection, with the synthetic index column always
prepended with stats none; reading while uninitialized is the
not-initialized fault. Returns the stats together with the updated
preview. -/
def DataPreview.get_columns_stats (B B2 : Nat) (p : DataPreview)
    (cs : Option (List String)) :
    Except PreviewError (List ColumnsStatsRecord × DataPreview) :=
  if ¬ p.initialized then Except.error PreviewError.notInitialized
  else if p.cachedColumnStats.isSome ∧ p.cachedColorScaleNames = cs then
    Except.ok (p.cachedColumnStats.getD [], p)
  else
    let processed := Table.mk p.source.names p.source.dtypes p.cachedData
    let stats := ColumnsStatsRecord.mk DEEPNOTE_INDEX_COLUMN "int64" none ::
      analyze_columns B B2 (cs.getD []) processed.toColumns
    Except.ok (stats,
      { p with cachedColumnStats := some stats, cachedColorScaleNames := cs })

/-- Characterizes the filter dicts rejected by Filter.from_dict: in the
structured shape a missing column or comparativeValues key or an
unrecognized operator string; in the legacy shape (no operator key) a type
key other than contains, or a missing id or value key. -/
def invalidShape (d : FilterDict) : Prop :=
  match d.operator with
  | some opStr =>
    d.column = none ∨ d.comparativeValues = none ∨ parseOperator opStr = none
  | none => d.type ≠ some "contains" ∨ d.id = none ∨ d.value = none

/-- A Python value as seen by safe_convert_to_string: either a bytes object,
or any other object together with the outcome of its string conversion
(none models a conversion that raises). -/
inductive PyValue where
  | bytes (bs : List (Fin 256)) : PyValue
  | obj (strForm : Option String) : PyValue
deriving DecidableEq, Repr

/-- The standard base64 alphabet. -/
def b64Alphabet : List Char :=
  "ABCDEFGHIJKLMNOPQRSTUVWXYZabcdefghijklmnopqrstuvwxyz0123456789+/".toList

/-- Character of the base64 alphabet at a 6-bit index. -/
def b64Char (n : Nat) : Char :=
  b64Alphabet.getD n '='

/-- RFC 4648 base64 encoding of a byte list, three bytes to four output
characters, padded with = signs. -/
def b64Chunks : List Nat → List Char
  | [] => []
  | [a] => [b64Char (a / 4), b64Char (a % 4 * 16), '=', '=']
  | [a, b] =>
    [b64Char (a / 4), b64Char (a % 4 * 16 + b / 16), b64Char (b % 16 * 4), '=']
  | a :: b :: c :: rest =>
    b64Char (a / 4) :: b64Char (a % 4 * 16 + b / 16) ::
      b64Char (b % 16 * 4 + c / 64) :: b64Char (c % 64) :: b64Chunks rest

/-- Base64 encoding of a byte list as a string (the ascii decoding of the
encoded bytes). -/
def b64encode (bs : List (Fin 256)) : String :=
  String.mk (b64Chunks (bs.map Fin.val))

/-- Embedding of safe_convert_to_string from
deepnote_toolkit/ocelots/pandas/utils.py: bytes are base64-encoded and
decoded as ascii; any other value is converted with str, and a conversion
that raises degrades to the fallback string. The Lean function is total: it
returns a string for every input. -/
def safe_convert_to_string : PyValue → String
  | PyValue.bytes bs => b64encode bs
  | PyValue.obj (some s) => s
  | PyValue.obj none => "<unconvertible>"

/-- Demo column for the budget claims: two numeric rows. -/
def demoNumCol : Column :=
  Column.mk "c" "int64" [Cell.num 1, Cell.num 2]

/-- Demo categorical column with five distinct values over six rows, taken
from the unit test for the more-than-three-distinct-values case. -/
def claim2Col : Column :=
  Column.mk "col1" "object"
    [Cell.str "a", Cell.str "a", Cell.str "b", Cell.str "c", Cell.str "d",
      Cell.str "e"]

/-- Demo numeric column containing both infinities, taken from the
infinite-values unit test. -/
def demoInfCol : Column :=
  Column.mk "col1" "float64"
    [Cell.num 0, Cell.num 1, Cell.inf true, Cell.inf false, Cell.num 2]

/-- Demo all-null column. -/
def demoNullCol : Column :=
  Column.mk "col1" "float64" [Cell.null, Cell.null, Cell.null]

/-- Demo source table with one numeric column and four rows. -/
def demoTable : Table :=
  Table.mk ["col1"] ["int64"]
    [[Cell.num 1], [Cell.num 2], [Cell.num 3], [Cell.num 4]]

/-- Demo initialized preview over ten materialized single-cell rows. -/
def demoPreview : DataPreview :=
  DataPreview.mk demoTable 0 (some ([], []))
    ((List.range 10).map fun i => [Cell.num (Int.ofNat i)]) 10 none none 1

/-- C10: safe_convert_to_string is total, returning a string for every
input value and never raising; bytes input yields the base64 encoding
decoded as ascii, and a value whose string conversion raises yields the
fallback string. -/
theorem claim10_safe_convert (v : PyValue) :
    (∀ bs, v = PyValue.bytes bs → safe_convert_to_string v = b64encode bs) ∧
    (v = PyValue.obj none → safe_convert_to_string v = "<unconvertible>") ∧
    (∀ s, v = PyValue.obj (some s) → safe_convert_to_string v = s) := by
  refine ⟨?_, ?_, ?_⟩
  · intro bs h
    subst h
    rfl
  · intro h
    subst h
    rfl
  · intro s h
    subst h
    rfl

/-- Witness for C10 at the bytes hello, a raising value, and a plain
string. -/
theorem claim10_safe_convert_witness :
    (safe_convert_to_string (PyValue.bytes [104, 101, 108, 108, 111]) =
      "aGVsbG8=") ∧
    (safe_convert_to_string (PyValue.obj none) = "<unconvertible>") ∧
    (safe_convert_to_string (PyValue.obj (some "42")) = "42") :=
  ⟨((claim10_safe_convert (PyValue.bytes [104, 101, 108, 108, 111])).1
      [104, 101, 108, 108, 111] rfl).trans (by decide),
    (claim10_safe_convert (PyValue.obj none)).2.1 rfl,
    (claim10_safe_convert (PyValue.obj (some "42"))).2.2 "42" rfl⟩

/-- C4: update_if_needed is idempotent on an identical (filters, sort_by)
pair: a repeated call is a no-op on the cache, two calls in a row starting
from a non-matching cache perform exactly one recompute, and every
recompute resets the cached column stats to none. -/
theorem claim4_update_idempotent (p : DataPreview) (fs : List Filter)
    (sb : List (String × Bool)) :
    ((p.update_if_needed fs sb).update_if_needed fs sb =
      p.update_if_needed fs sb) ∧
    (p.cachedKey ≠ some (fs, sb) →
      ((p.update_if_needed fs sb).update_if_needed fs sb).recomputeCount =
        p.recomputeCount + 1) ∧
    (p.cachedKey ≠ some (fs, sb) →
      (p.update_if_needed fs sb).cachedColumnStats = none) := by
  by_cases h : p.cachedKey = some (fs, sb)
  · refine ⟨?_, fun hne => absurd h hne, fun hne => absurd h hne⟩
    simp [DataPreview.update_if_needed, h]
  · refine ⟨?_, ?_, ?_⟩
    · simp [DataPreview.update_if_needed, h]
    · intro _
      simp [DataPreview.update_if_needed, h]
    · intro _
      simp [DataPreview.update_if_needed, h]

/-- Witness for C4 on a fresh preview and the empty filter and sort pair. -/
theorem claim4_update_idempotent_witness :
    (DataPreview.init demoTable 0).cachedKey ≠ some ([], []) ∧
    (((DataPreview.init demoTable 0).update_if_needed [] []).update_if_needed
        [] []).recomputeCount =
      (DataPreview.init demoTable 0).recomputeCount + 1 ∧
    ((DataPreview.init demoTable 0).update_if_needed [] []).cachedColumnStats =
      none :=
  ⟨by decide,
    (claim4_update_idempotent (DataPreview.init demoTable 0) [] []).2.1
      (by decide),
    (claim4_update_idempotent (DataPreview.init demoTable 0) [] []).2.2
      (by decide)⟩

/-- C9: every read of data, total_size, page or get_columns_stats on a
freshly created preview is the distinct not-initialized fault, and after
the first update_if_needed the same reads succeed (page under valid
arguments). -/
theorem claim9_uninitialized_reads (src : Table) (today : Int)
    (fs : List Filter) (sb : List (String × Bool)) (index size : Int)
    (cs : Option (List String)) (B B2 : Nat) :
    ((DataPreview.init src today).data =
        Except.error PreviewError.notInitialized ∧
      (DataPreview.init src today).total_size =
        Except.error PreviewError.notInitialized ∧
      (DataPreview.init src today).page index size =
        Except.error PreviewError.notInitialized ∧
      (DataPreview.init src today).get_columns_stats B B2 cs =
        Except.error PreviewError.notInitialized) ∧
    ((∃ v, ((DataPreview.init src today).update_if_needed fs sb).data =
        Except.ok v) ∧
      (∃ v, ((DataPreview.init src today).update_if_needed fs sb).total_size =
        Except.ok v) ∧
      (0 ≤ index → 0 < size →
        ∃ v, ((DataPreview.init src today).update_if_needed fs sb).page
          index size = Except.ok v) ∧
      (∃ v, ((DataPreview.init src today).update_if_needed fs
          sb).get_columns_stats B B2 cs = Except.ok v)) := by
  refine ⟨⟨?_, ?_, ?_, ?_⟩, ⟨?_, ?_, ?_, ?_⟩⟩
  · simp [DataPreview.init, DataPreview.data, DataPreview.initialized]
  · simp [DataPreview.init, DataPreview.total_size, DataPreview.initialized]
  · simp [DataPreview.init, DataPreview.page, DataPreview.initialized]
  · simp [DataPreview.init, DataPreview.get_columns_stats,
      DataPreview.initialized]
  · simp [DataPreview.init, DataPreview.update_if_needed, DataPreview.data,
      DataPreview.initialized]
  · simp [DataPreview.init, DataPreview.update_if_needed,
      DataPreview.total_size, DataPreview.initialized]
  · intro h1 h2
    simp [DataPreview.init, DataPreview.update_if_needed, DataPreview.page,
      DataPreview.initialized, not_lt.mpr h1, not_le.mpr h2]
  · simp [DataPreview.init, DataPreview.update_if_needed,
      DataPreview.get_columns_stats, DataPreview.initialized]

/-- Witness for C9 on the demo table with valid page arguments. -/
theorem claim9_uninitialized_reads_witness :
    (0 : Int) ≤ 0 ∧ (0 : Int) < 3 ∧
    (∃ v, ((DataPreview.init demoTable 0).update_if_needed [] []).page 0 3 =
      Except.ok v) :=
  ⟨by decide, by decide,
    (claim9_uninitialized_reads demoTable 0 [] [] 0 3 none 100 100).2.2.2.1
      (by decide) (by decide)⟩

theorem colIndex_eq_none (names : List String) (col : String)
    (h : col ∉ names) : colIndex names col = none := by
  induction names with
  | nil => rfl
  | cons n rest ih =>
    have hne : n ≠ col := fun he => h (he ▸ List.mem_cons_self n rest)
    have hrest : col ∉ rest := fun hm => h (List.mem_cons_of_mem n hm)
    simp [colIndex, hne, ih hrest]

/-- C5: a Filter whose column does not exist in the table, or whose
comparative values are empty while its operator requires at least one
value, is silently dropped: filtering with it returns the table unchanged
and never fails. -/
theorem claim5_filter_noop (today : Int) (t : Table) (f : Filter)
    (h : f.column ∉ t.names ∨
      (f.comparative_values = [] ∧ 1 ≤ minArity f.operator)) :
    Table.filterBy today t [f] = t := by
  have hpass : ∀ r, rowPasses today t.names f r = true := by
    intro r
    unfold rowPasses
    rcases h with h | h
    · simp [colIndex_eq_none t.names f.column h]
    · cases hidx : colIndex t.names f.column with
      | none => simp
      | some i => simp [h.1, h.2]
  obtain ⟨names, dtypes, rows⟩ := t
  unfold Table.filterBy
  simp only [Table.mk.injEq, true_and]
  apply List.filter_eq_self.mpr
  intro r _
  simp [hpass r]

/-- Witness for C5 on a filter naming a missing column. -/
theorem claim5_filter_noop_witness :
    ("missing_col" ∉ demoTable.names ∨
      (([] : List Cell) = [] ∧
        1 ≤ minArity FilterOperator.LESS_THAN_OR_EQUAL)) ∧
    Table.filterBy 0 demoTable
      [Filter.mk "missing_col" FilterOperator.LESS_THAN_OR_EQUAL
        [Cell.num 200]] = demoTable :=
  ⟨Or.inl (by decide),
    claim5_filter_noop 0 demoTable
      (Filter.mk "missing_col" FilterOperator.LESS_THAN_OR_EQUAL
        [Cell.num 200]) (Or.inl (by decide))⟩

/-- C7: Filter.from_dict accepts exactly the two wire shapes: the legacy
contains dict parses to TEXT_CONTAINS with the single given value, the
structured dict with a recognized operator string parses to the
corresponding filter, and parsing yields the invalid-filter error exactly
when a required key of the detected shape is missing or its operator
string is unrecognized. -/
theorem claim7_filter_parsing :
    (∀ (col : String) (v : Cell) (c : Option String)
        (cvs : Option (List Cell)),
      Filter.from_dict
          (FilterDict.mk (some col) (some v) (some "contains") c none cvs) =
        Except.ok (Filter.mk col FilterOperator.TEXT_CONTAINS [v])) ∧
    (∀ (d : FilterDict) (col opStr : String) (op : FilterOperator)
        (vs : List Cell),
      d.operator = some opStr → d.column = some col →
      d.comparativeValues = some vs → parseOperator opStr = some op →
      Filter.from_dict d = Except.ok (Filter.mk col op vs)) ∧
    (∀ d : FilterDict,
      Filter.from_dict d = Except.error FilterError.invalidFilter ↔
        invalidShape d) := by
  refine ⟨?_, ?_, ?_⟩
  · intro col v c cvs
    simp [Filter.from_dict]
  · intro d col opStr op vs hop hcol hcv hparse
    obtain ⟨i, val, ty, c, o, cv⟩ := d
    simp only at hop hcol hcv
    subst hop
    subst hcol
    subst hcv
    simp [Filter.from_dict, hparse]
  · intro d
    obtain ⟨i, val, ty, c, o, cv⟩ := d
    cases o with
    | some opStr =>
      cases c <;> cases cv <;> cases hp : parseOperator opStr <;>
        simp [Filter.from_dict, invalidShape, hp]
    | none =>
      by_cases hty : ty = some "contains"
      · cases i <;> cases val <;>
          simp [Filter.from_dict, invalidShape, hty]
      · simp [Filter.from_dict, invalidShape, hty]

/-- Witness for C7 on the legacy contains dict, a structured greater-than
dict, and a structured dict with an unrecognized operator string. -/
theorem claim7_filter_parsing_witness :
    (Filter.from_dict
        (FilterDict.mk (some "col1") (some (Cell.str "test"))
          (some "contains") none none none) =
      Except.ok (Filter.mk "col1" FilterOperator.TEXT_CONTAINS
        [Cell.str "test"])) ∧
    (Filter.from_dict
        (FilterDict.mk none none none (some "col1") (some "greater-than")
          (some [Cell.num 100])) =
      Except.ok (Filter.mk "col1" FilterOperator.GREATER_THAN
        [Cell.num 100])) ∧
    (Filter.from_dict
        (FilterDict.mk none none none (some "col1")
          (some "invalid-operator") (some [Cell.num 100])) =
      Except.error FilterError.invalidFilter) :=
  ⟨claim7_filter_parsing.1 "col1" (Cell.str "test") none none,
    claim7_filter_parsing.2.1
      (FilterDict.mk none none none (some "col1") (some "greater-than")
        (some [Cell.num 100])) "col1" "greater-than"
      FilterOperator.GREATER_THAN [Cell.num 100] rfl rfl rfl (by decide),
    (claim7_filter_parsing.2.2
      (FilterDict.mk none none none (some "col1") (some "invalid-operator")
        (some [Cell.num 100]))).mpr (by
        simp [invalidShape]
        decide)⟩

/-- C3: on an initialized preview holding at least one row, page raises the
input error exactly on a negative index or non-positive size, and any valid
index yields a non-empty page, an index beyond the last page returning the
same result as the last page index (clamping). -/
theorem claim3_page_clamps (p : DataPreview) (hinit : p.initialized = true)
    (hne : p.cachedData ≠ []) (index size : Int) :
    ((index < 0 ∨ size ≤ 0) →
      p.page index size = Except.error PreviewError.valueError) ∧
    (0 ≤ index → 0 < size →
      ∃ r, p.page index size = Except.ok r ∧ r ≠ [] ∧
        (((p.cachedData.length - 1) / size.toNat : Nat) ≤ index.toNat →
          p.page index size =
            p.page (((p.cachedData.length - 1) / size.toNat : Nat) : Int)
              size)) := by
  constructor
  · intro h
    simp only [DataPreview.page, hinit, not_true_eq_false, if_false]
    rw [if_pos h]
  · intro h1 h2
    have hneg : ¬ (index < 0 ∨ size ≤ 0) := by omega
    have hok : p.page index size =
        Except.ok ((p.cachedData.drop
          ((min index.toNat ((p.cachedData.length - 1) / size.toNat)) *
            size.toNat)).take size.toNat) := by
      simp only [DataPreview.page, hinit, not_true_eq_false, if_false]
      rw [if_neg hneg]
    have hlen : 0 < p.cachedData.length := List.length_pos.mpr hne
    have hsz : 0 < size.toNat := by omega
    have hj : (min index.toNat ((p.cachedData.length - 1) / size.toNat)) *
        size.toNat < p.cachedData.length := by
      have h3 : (min index.toNat ((p.cachedData.length - 1) / size.toNat)) *
          size.toNat ≤
          ((p.cachedData.length - 1) / size.toNat) * size.toNat :=
        Nat.mul_le_mul_right size.toNat
          (min_le_right index.toNat ((p.cachedData.length - 1) / size.toNat))
      have h4 := Nat.div_mul_le_self (p.cachedData.length - 1) size.toNat
      omega
    refine ⟨_, hok, ?_, ?_⟩
    · have hpos : 0 < ((p.cachedData.drop
          ((min index.toNat ((p.cachedData.length - 1) / size.toNat)) *
            size.toNat)).take size.toNat).length := by
        rw [List.length_take, List.length_drop]
        omega
      exact List.length_pos.mp hpos
    · intro hlast
      have hneg2 : ¬ ((((p.cachedData.length - 1) / size.toNat : Nat) : Int)
          < 0 ∨ size ≤ 0) := by
        rw [not_or]
        exact ⟨not_lt.mpr (Int.natCast_nonneg _), by omega⟩
      have hok2 : p.page (((p.cachedData.length - 1) / size.toNat : Nat) :
          Int) size =
          Except.ok ((p.cachedData.drop
            ((min (((p.cachedData.length - 1) / size.toNat : Nat) : Int).toNat
                ((p.cachedData.length - 1) / size.toNat)) *
              size.toNat)).take size.toNat) := by
        simp only [DataPreview.page, hinit, not_true_eq_false, if_false]
        rw [if_neg hneg2]
      rw [hok, hok2, Int.toNat_natCast, min_self, min_eq_right hlast]

/-- Witness for C3 on the demo preview: negative index errors, index 42 with
page size 3 clamps to the last page. -/
theorem claim3_page_clamps_witness :
    demoPreview.initialized = true ∧ demoPreview.cachedData ≠ [] ∧
    demoPreview.page (-1) 3 = Except.error PreviewError.valueError ∧
    (∃ r, demoPreview.page 42 3 = Except.ok r ∧ r ≠ [] ∧
      (((demoPreview.cachedData.length - 1) / (3 : Int).toNat : Nat) ≤
          (42 : Int).toNat →
        demoPreview.page 42 3 =
          demoPreview.page
            (((demoPreview.cachedData.length - 1) / (3 : Int).toNat : Nat) :
              Int) 3)) :=
  ⟨by decide, by decide,
    (claim3_page_clamps demoPreview (by decide) (by decide) (-1) 3).1
      (Or.inl (by decide)),
    (claim3_page_clamps demoPreview (by decide) (by decide) 42 3).2
      (by decide) (by decide)⟩

theorem analyzeColumnsGo_stats (nrows B B2 : Nat) (cols : List Column) :
    ∀ (k k2 : Nat),
      ∀ p ∈ (analyzeColumnsGo nrows B B2 [] k k2 cols).zip cols,
        p.1.stats = none ∨ p.1.stats = some (analyzeColumn p.2) := by
  induction cols with
  | nil =>
    intro k k2 p hp
    simp [analyzeColumnsGo] at hp
  | cons c rest ih =>
    intro k k2 p hp
    simp only [analyzeColumnsGo, List.not_mem_nil, false_and, if_false] at hp
    split at hp
    · rw [List.zip_cons_cons] at hp
      rcases List.mem_cons.mp hp with h | h
      · subst h
        exact Or.inl rfl
      · exact ih k k2 p h
    · split at hp
      · rw [List.zip_cons_cons] at hp
        rcases List.mem_cons.mp hp with h | h
        · subst h
          exact Or.inr rfl
        · exact ih (k + 1) k2 p h
      · rw [List.zip_cons_cons] at hp
        rcases List.mem_cons.mp hp with h | h
        · subst h
          exact Or.inl rfl
        · exact ih k k2 p h

theorem analyzeColumnsGo_none_of_over (nrows B B2 : Nat) (h : B < nrows)
    (cols : List Column) :
    ∀ (k k2 : Nat), ∀ r ∈ analyzeColumnsGo nrows B B2 [] k k2 cols,
      r.stats = none := by
  induction cols with
  | nil =>
    intro k k2 r hr
    simp [analyzeColumnsGo] at hr
  | cons c rest ih =>
    intro k k2 r hr
    have hb : ¬ (nrows * (k + 1) ≤ B) := by
      have h1 : nrows * 1 ≤ nrows * (k + 1) :=
        Nat.mul_le_mul_left nrows (by omega)
      omega
    simp only [analyzeColumnsGo, hb, if_false, List.not_mem_nil, false_and]
      at hr
    split at hr
    · rcases List.mem_cons.mp hr with h2 | h2
      · subst h2
        rfl
      · exact ih k k2 r h2
    · rcases List.mem_cons.mp hr with h2 | h2
      · subst h2
        rfl
      · exact ih k k2 r h2

/-- C1: with no color-scale columns requested, every record returned by
analyze_columns either has stats none or carries exactly the full analysis
of its column, never a partially computed stats object; and when even one
column of the table would push the rows-times-columns product past the
budget, every returned record has stats none. -/
theorem claim1_budget_all_or_nothing (B B2 : Nat) (cols : List Column) :
    (∀ p ∈ (analyze_columns B B2 [] cols).zip cols,
        p.1.stats = none ∨ p.1.stats = some (analyzeColumn p.2)) ∧
    (B < numRows cols →
      ∀ r ∈ analyze_columns B B2 [] cols, r.stats = none) :=
  ⟨analyzeColumnsGo_stats (numRows cols) B B2 cols 0 0,
    fun h => analyzeColumnsGo_none_of_over (numRows cols) B B2 h cols 0 0⟩

/-- Witness for C1: under budget 0 the two-row demo column is over budget
and its record has stats none. -/
theorem claim1_budget_all_or_nothing_witness :
    ((ColumnsStatsRecord.mk "c" "int64" none, demoNumCol) ∈
        (analyze_columns 0 0 [] [demoNumCol]).zip [demoNumCol] ∧
      ((ColumnsStatsRecord.mk "c" "int64" none).stats = none ∨
        (ColumnsStatsRecord.mk "c" "int64" none).stats =
          some (analyzeColumn demoNumCol))) ∧
    (0 < numRows [demoNumCol] ∧
      ∀ r ∈ analyze_columns 0 0 [] [demoNumCol], r.stats = none) :=
  ⟨⟨by decide,
      (claim1_budget_all_or_nothing 0 0 [demoNumCol]).1
        (ColumnsStatsRecord.mk "c" "int64" none, demoNumCol) (by decide)⟩,
    ⟨by decide,
      (claim1_budget_all_or_nothing 0 0 [demoNumCol]).2 (by decide)⟩⟩

/-- C8: a column whose cells are all null yields unique_count 0, nan_count
equal to the row count, no extremes, no histogram, and a single Missing
category bucket counting every row. -/
theorem claim8_all_null (c : Column) (n : Nat)
    (hall : ∀ x ∈ c.cells, x = Cell.null) (hlen : c.cells.length = n)
    (hpos : 0 < n) :
    analyzeColumn c = ColumnStats.mk 0 n none none none
      (some [Category.mk "Missing" n]) := by
  have hnn : nonNulls c.cells = [] := by
    rw [nonNulls, List.filter_eq_nil_iff]
    intro a ha
    simp [hall a ha]
  have hcount : c.cells.count Cell.null = n := by
    rw [← hlen]
    exact List.count_eq_length.mpr fun b hb => ((hall b hb).symm)
  simp [analyzeColumn, hnn, hcount, categoriesOf, sortedCounts, valueCounts,
    firstSeen, MAX_CATEGORIES, hpos, List.insertionSort]

/-- Witness for C8 at a three-row all-null column. -/
theorem claim8_all_null_witness :
    (∀ x ∈ demoNullCol.cells, x = Cell.null) ∧
    demoNullCol.cells.length = 3 ∧ 0 < 3 ∧
    analyzeColumn demoNullCol = ColumnStats.mk 0 3 none none none
      (some [Category.mk "Missing" 3]) :=
  ⟨by decide, by decide, by decide,
    claim8_all_null demoNullCol 3 (by decide) (by decide) (by decide)⟩

theorem firstSeen_nodup (l : List String) : (firstSeen l).Nodup := by
  induction l with
  | nil => exact List.nodup_nil
  | cons k t ih =>
    rw [firstSeen]
    refine List.Nodup.cons ?_ (List.Nodup.filter _ ih)
    intro hmem
    have := (List.mem_filter.mp hmem).2
    simp at this

theorem mem_firstSeen {a : String} {l : List String} :
    a ∈ firstSeen l ↔ a ∈ l := by
  induction l with
  | nil => simp [firstSeen]
  | cons k t ih =>
    rw [firstSeen]
    by_cases hak : a = k
    · subst hak
      simp
    · simp only [List.mem_cons, List.mem_filter]
      constructor
      · rintro (h | h)
        · exact Or.inl h
        · exact Or.inr (ih.mp h.1)
      · rintro (h | h)
        · exact Or.inl h
        · exact Or.inr ⟨ih.mpr h, by simp [hak]⟩

theorem sum_counts_firstSeen (l : List String) :
    ((firstSeen l).map (fun k => l.count k)).sum = l.length := by
  have hperm : (firstSeen l).Perm l.dedup :=
    (List.perm_ext_iff_of_nodup (firstSeen_nodup l) (List.nodup_dedup l)).mpr
      fun a => mem_firstSeen.trans List.mem_dedup.symm
  rw [(hperm.map (fun k => l.count k)).sum_eq]
  exact List.sum_map_count_dedup_eq_length l

theorem sortedCounts_perm (ks : List String) :
    (sortedCounts ks).Perm (valueCounts ks) :=
  List.perm_insertionSort _ _

theorem sortedCounts_length (ks : List String) :
    (sortedCounts ks).length = (firstSeen ks).length := by
  rw [(sortedCounts_perm ks).length_eq, valueCounts, List.length_map]

theorem sortedCounts_sum (ks : List String) :
    ((sortedCounts ks).map Prod.snd).sum = ks.length := by
  rw [((sortedCounts_perm ks).map Prod.snd).sum_eq, valueCounts,
    List.map_map]
  exact sum_counts_firstSeen ks

theorem nonNulls_length_add_count (l : List Cell) :
    (nonNulls l).length + l.count Cell.null = l.length := by
  induction l with
  | nil => rfl
  | cons x t ih =>
    by_cases hx : x = Cell.null
    · subst hx
      rw [nonNulls] at ih ⊢
      rw [List.filter_cons_of_neg (by simp), List.count_cons_self,
        List.length_cons]
      omega
    · rw [nonNulls] at ih ⊢
      rw [List.filter_cons_of_pos (by simp [hx]),
        List.count_cons_of_ne (fun h => hx h.symm), List.length_cons,
        List.length_cons]
      omega

theorem categoriesOf_no_missing (ks : List String)
    (hlen : MAX_CATEGORIES < (sortedCounts ks).length) :
    ∃ p1 p2 : String × Nat, ∃ rest : List (String × Nat),
      sortedCounts ks = p1 :: p2 :: rest ∧
      categoriesOf ks 0 =
        [Category.mk p1.1 p1.2, Category.mk p2.1 p2.2,
          Category.mk (toString ((sortedCounts ks).length - 2) ++ " others")
            ((rest.map Prod.snd).sum)] := by
  rcases hs : sortedCounts ks with _ | ⟨p1, _ | ⟨p2, rest⟩⟩
  · rw [hs] at hlen
    simp [MAX_CATEGORIES] at hlen
  · rw [hs] at hlen
    simp [MAX_CATEGORIES] at hlen
  · refine ⟨p1, p2, rest, rfl, ?_⟩
    rw [hs] at hlen
    simp only [categoriesOf, hs, MAX_CATEGORIES] at *
    rw [if_neg (lt_irrefl 0), if_pos hlen, if_neg (lt_irrefl 0)]
    simp

theorem categoriesOf_missing (ks : List String) (nan : Nat) (hnan : 0 < nan)
    (hlen : MAX_CATEGORIES < (sortedCounts ks).length) :
    ∃ p1 : String × Nat, ∃ rest : List (String × Nat),
      sortedCounts ks = p1 :: rest ∧
      categoriesOf ks nan =
        [Category.mk p1.1 p1.2,
          Category.mk (toString ((sortedCounts ks).length - 1) ++ " others")
            ((rest.map Prod.snd).sum),
          Category.mk "Missing" nan] := by
  rcases hs : sortedCounts ks with _ | ⟨p1, rest⟩
  · rw [hs] at hlen
    simp [MAX_CATEGORIES] at hlen
  · refine ⟨p1, rest, rfl, ?_⟩
    rw [hs] at hlen
    have hlen2 : MAX_CATEGORIES - 1 < (p1 :: rest).length := by
      simp [MAX_CATEGORIES] at hlen ⊢
      omega
    simp only [categoriesOf, hs, MAX_CATEGORIES] at *
    rw [if_pos hnan, if_pos hlen2, if_pos hnan]
    simp

/-- Counterexample to C2 as stated: on six rows over five distinct
categorical values the analysis yields three buckets in total, two named
values plus one others bucket, not three named values plus an others
bucket (which would require a list of four). -/
theorem claim2_counterexample :
    (analyzeColumn claim2Col).categories =
      some [Category.mk "a" 2, Category.mk "b" 1,
        Category.mk "3 others" 3] ∧
    ((analyzeColumn claim2Col).categories.getD []).length ≠ 4 := by
  constructor
  · decide
  · decide

/-- C2 amended: on a categorical column with more than MAX_CATEGORIES
distinct non-null values, the category list has exactly MAX_CATEGORIES
buckets in total: without missing values, two named buckets plus one
others bucket counting total rows minus missing minus the named counts;
with missing values, one named bucket, one others bucket counting total
rows minus missing minus the named count, and a final Missing bucket. -/
theorem claim2_categories_capped (c : Column)
    (hcat : isNumericDtype c.dtype = false)
    (hd : MAX_CATEGORIES <
      (firstSeen ((nonNulls c.cells).map cellKey)).length) :
    ∃ cats, (analyzeColumn c).categories = some cats ∧
      cats.length = MAX_CATEGORIES ∧
      (c.cells.count Cell.null = 0 →
        ∃ n1 n2 : Category, cats = [n1, n2,
          Category.mk
            (toString
              ((firstSeen ((nonNulls c.cells).map cellKey)).length - 2) ++
                " others")
            (c.cells.length - c.cells.count Cell.null - n1.count -
              n2.count)]) ∧
      (0 < c.cells.count Cell.null →
        ∃ n1 : Category, cats = [n1,
          Category.mk
            (toString
              ((firstSeen ((nonNulls c.cells).map cellKey)).length - 1) ++
                " others")
            (c.cells.length - c.cells.count Cell.null - n1.count),
          Category.mk "Missing" (c.cells.count Cell.null)]) := by
  have hcats : (analyzeColumn c).categories =
      some (categoriesOf ((nonNulls c.cells).map cellKey)
        (c.cells.count Cell.null)) := by
    simp [analyzeColumn, hcat]
  have hslen : (sortedCounts ((nonNulls c.cells).map cellKey)).length =
      (firstSeen ((nonNulls c.cells).map cellKey)).length :=
    sortedCounts_length _
  have hlen : MAX_CATEGORIES <
      (sortedCounts ((nonNulls c.cells).map cellKey)).length := by
    rw [hslen]
    exact hd
  have hssum : ((sortedCounts ((nonNulls c.cells).map cellKey)).map
      Prod.snd).sum = (nonNulls c.cells).length := by
    rw [sortedCounts_sum, List.length_map]
  have hsplit := nonNulls_length_add_count c.cells
  by_cases hnan : c.cells.count Cell.null = 0
  · obtain ⟨p1, p2, rest, hs, hcat2⟩ := categoriesOf_no_missing _ hlen
    rw [hnan] at hcats
    refine ⟨_, hcats.trans (congrArg some hcat2), rfl, fun _ => ?_,
      fun hpos => absurd hnan (by omega)⟩
    refine ⟨Category.mk p1.1 p1.2, Category.mk p2.1 p2.2, ?_⟩
    have hsum2 : p1.2 + p2.2 + (rest.map Prod.snd).sum =
        (nonNulls c.cells).length := by
      rw [hs] at hssum
      simp at hssum
      omega
    have hval : (rest.map Prod.snd).sum =
        c.cells.length - c.cells.count Cell.null - p1.2 - p2.2 := by
      omega
    rw [← hslen, ← hval]
  · obtain ⟨p1, rest, hs, hcat2⟩ :=
      categoriesOf_missing _ (c.cells.count Cell.null) (by omega) hlen
    refine ⟨_, hcats.trans (congrArg some hcat2), rfl,
      fun h0 => absurd h0 hnan, fun _ => ?_⟩
    refine ⟨Category.mk p1.1 p1.2, ?_⟩
    have hsum2 : p1.2 + (rest.map Prod.snd).sum =
        (nonNulls c.cells).length := by
      rw [hs] at hssum
      simpa using hssum
    have hval : (rest.map Prod.snd).sum =
        c.cells.length - c.cells.count Cell.null - p1.2 := by
      omega
    rw [← hslen, ← hval]

/-- Witness for C2 amended at the six-row five-distinct-values column. -/
theorem claim2_categories_capped_witness :
    isNumericDtype claim2Col.dtype = false ∧
    MAX_CATEGORIES <
      (firstSeen ((nonNulls claim2Col.cells).map cellKey)).length ∧
    (∃ cats, (analyzeColumn claim2Col).categories = some cats ∧
      cats.length = MAX_CATEGORIES ∧
      (claim2Col.cells.count Cell.null = 0 →
        ∃ n1 n2 : Category, cats = [n1, n2,
          Category.mk
            (toString
              ((firstSeen ((nonNulls claim2Col.cells).map cellKey)).length -
                2) ++ " others")
            (claim2Col.cells.length - claim2Col.cells.count Cell.null -
              n1.count - n2.count)]) ∧
      (0 < claim2Col.cells.count Cell.null →
        ∃ n1 : Category, cats = [n1,
          Category.mk
            (toString
              ((firstSeen ((nonNulls claim2Col.cells).map cellKey)).length -
                1) ++ " others")
            (claim2Col.cells.length - claim2Col.cells.count Cell.null -
              n1.count),
          Category.mk "Missing" (claim2Col.cells.count Cell.null)])) :=
  ⟨by decide, by decide,
    claim2_categories_capped claim2Col (by decide) (by decide)⟩

/-- C6: on a numeric column with at least one non-null value, when the
finite (non-null, non-infinite) values have a non-zero range the histogram
has exactly 10 bins whose bounds are all finite fractions lying inside the
finite value range (so infinities never leak into a bound), and when the
finite values are empty or their range is zero the histogram is left none
and analysis does not fail. -/
theorem claim6_histogram_bins (c : Column)
    (hnum : isNumericDtype c.dtype = true)
    (hnn : nonNulls c.cells ≠ []) :
    (∀ (h : Int) (t : List Int), finiteVals (nonNulls c.cells) = h :: t →
      (t.foldl min h < t.foldl max h →
        ∃ bins, (analyzeColumn c).histogram = some bins ∧
          bins.length = 10 ∧
          ∀ b ∈ bins, b.bin_start.fden = 10 ∧ b.bin_end.fden = 10 ∧
            10 * t.foldl min h ≤ b.bin_start.fnum ∧
            b.bin_start.fnum < b.bin_end.fnum ∧
            b.bin_end.fnum ≤ 10 * t.foldl max h) ∧
      (t.foldl min h = t.foldl max h →
        (analyzeColumn c).histogram = none)) ∧
    (finiteVals (nonNulls c.cells) = [] →
      (analyzeColumn c).histogram = none) := by
  have hhist : (analyzeColumn c).histogram =
      histogramOf (nonNulls c.cells) := by
    simp [analyzeColumn, hnum, hnn]
  constructor
  · intro h t hft
    constructor
    · intro hlt
      have hne : ¬ (t.foldl min h = t.foldl max h) := ne_of_lt hlt
      rw [hhist]
      simp only [histogramOf, hft]
      rw [if_neg hne]
      refine ⟨_, rfl, by rw [List.length_map, List.length_range], ?_⟩
      intro b hb
      obtain ⟨i, him, rfl⟩ := List.mem_map.mp hb
      have hi10 : i < 10 := List.mem_range.mp him
      refine ⟨rfl, rfl, ?_, ?_, ?_⟩
      · show 10 * t.foldl min h ≤
          t.foldl min h * 10 +
            (t.foldl max h - t.foldl min h) * (i : Int)
        have h1 : (0 : Int) ≤
            (t.foldl max h - t.foldl min h) * (i : Int) :=
          mul_nonneg (by omega) (Int.natCast_nonneg i)
        linarith
      · show t.foldl min h * 10 +
            (t.foldl max h - t.foldl min h) * (i : Int) <
          t.foldl min h * 10 +
            (t.foldl max h - t.foldl min h) * ((i : Int) + 1)
        have h2 : (t.foldl max h - t.foldl min h) * (i : Int) <
            (t.foldl max h - t.foldl min h) * ((i : Int) + 1) :=
          mul_lt_mul_of_pos_left (by omega) (by omega)
        linarith
      · show t.foldl min h * 10 +
            (t.foldl max h - t.foldl min h) * ((i : Int) + 1) ≤
          10 * t.foldl max h
        have h3 : ((i : Int) + 1) ≤ 10 := by omega
        have h4 : (t.foldl max h - t.foldl min h) * ((i : Int) + 1) ≤
            (t.foldl max h - t.foldl min h) * 10 :=
          mul_le_mul_of_nonneg_left h3 (by omega)
        linarith
    · intro heq
      rw [hhist]
      simp only [histogramOf, hft]
      rw [if_pos heq]
  · intro hfin
    rw [hhist]
    simp only [histogramOf, hfin]

/-- Witness for C6 at the demo column containing both infinities: the
finite values are 0, 1, 2 and the ten bin bounds stay inside that range. -/
theorem claim6_histogram_bins_witness :
    isNumericDtype demoInfCol.dtype = true ∧
    nonNulls demoInfCol.cells ≠ [] ∧
    finiteVals (nonNulls demoInfCol.cells) = [0, 1, 2] ∧
    ([1, 2] : List Int).foldl min 0 < ([1, 2] : List Int).foldl max 0 ∧
    (∃ bins, (analyzeColumn demoInfCol).histogram = some bins ∧
      bins.length = 10 ∧
      ∀ b ∈ bins, b.bin_start.fden = 10 ∧ b.bin_end.fden = 10 ∧
        10 * ([1, 2] : List Int).foldl min 0 ≤ b.bin_start.fnum ∧
        b.bin_start.fnum < b.bin_end.fnum ∧
        b.bin_end.fnum ≤ 10 * ([1, 2] : List Int).foldl max 0) :=
  ⟨by decide, by decide, by decide, by decide,
    ((claim6_histogram_bins demoInfCol (by decide) (by decide)).1 0 [1, 2]
      (by decide)).1 (by decide)⟩

end Ocelots
